/-
Verification of the filtering-and-aggregation pipeline of the sales
dashboard (`src/streamlit_app.py`).

The pipeline is shallowly embedded: a pandas DataFrame becomes a
`List Record`, the sidebar filter steps become functions on such lists,
and the aggregate expressions (`.sum()`, `.groupby(...).mean()`,
`value_counts()`, ...) become pure Lean functions.  Missing values
(NaN / NaT) are modelled with `Option`.  Only the columns the verified
pipeline reads (`Date`, `Time`, `Product line`, `Total`, `Payment` and
the derived `Day`, `Month`, `Hour`) are modelled; the remaining columns
are never consulted by the filters or by the aggregates under study.
-/
import Mathlib

/-- A calendar date, as produced by `pd.to_datetime(..., format='%m/%d/%Y')`. -/
structure SDate where
  year : Nat
  month : Nat
  day : Nat
deriving DecidableEq, Repr

/-- Chronological comparison of dates (pandas `Timestamp` order): years,
then months, then days. -/
def SDate.le (a b : SDate) : Bool :=
  decide (a.year < b.year ∨
    (a.year = b.year ∧ (a.month < b.month ∨
      (a.month = b.month ∧ a.day ≤ b.day))))

/-- English month names, as returned by pandas `Series.dt.month_name()`;
index 0 is January. -/
def monthNames : List String :=
  ["January", "February", "March", "April", "May", "June", "July",
   "August", "September", "October", "November", "December"]

/-- The month name of a (1-based) month number. -/
def monthName (m : Nat) : String := monthNames.getD (m - 1) ""

/-- Zeller's congruence: day of week of a Gregorian date,
0 = Saturday, 1 = Sunday, 2 = Monday, ..., 6 = Friday. -/
def SDate.zeller (d : SDate) : Nat :=
  let m := if d.month < 3 then d.month + 12 else d.month
  let y := if d.month < 3 then d.year - 1 else d.year
  (d.day + (13 * (m + 1)) / 5 + y % 100 + (y % 100) / 4 + (y / 100) / 4
    + 5 * (y / 100)) % 7

/-- English weekday name of a date, as returned by pandas
`Series.dt.day_name()`. -/
def dayName (d : SDate) : String :=
  ["Saturday", "Sunday", "Monday", "Tuesday", "Wednesday", "Thursday",
   "Friday"].getD d.zeller ""

/-- Splits a character list on a separator character (used to embed the
fixed-format date/time parsing; Lean's `String.splitOn` does not reduce
in the kernel). -/
def splitOnChar (sep : Char) : List Char → List (List Char)
  | [] => [[]]
  | c :: cs =>
    let rest := splitOnChar sep cs
    if c = sep then [] :: rest
    else match rest with
      | [] => [[c]]
      | g :: gs => (c :: g) :: gs

/-- The numeric value of a decimal digit character, `none` otherwise. -/
def digitVal (c : Char) : Option Nat :=
  if c.isDigit then some (c.toNat - 48) else none

/-- Reads a nonempty all-digit character list as a natural number;
any other list yields `none`. -/
def natOfDigits : List Char → Option Nat
  | [] => none
  | cs => cs.foldl
      (fun acc c =>
        match acc, digitVal c with
        | some n, some d => some (n * 10 + d)
        | _, _ => none)
      (some 0)

/-- Whether a year is a Gregorian leap year. -/
def isLeap (y : Nat) : Bool :=
  (y % 4 == 0 && y % 100 != 0) || y % 400 == 0

/-- Number of days in a month of a given year. -/
def daysInMonth (y m : Nat) : Nat :=
  if m == 2 then (if isLeap y then 29 else 28)
  else if m == 4 || m == 6 || m == 9 || m == 11 then 30
  else 31

/-- Embeds `pd.to_datetime(s, format='%m/%d/%Y', errors='coerce')`:
parses `month/day/year`, yielding `none` (NaT) on any mismatch. -/
def parseDate (s : String) : Option SDate :=
  match (splitOnChar '/' s.data).map natOfDigits with
  | [some m, some d, some y] =>
    if 1 ≤ m && m ≤ 12 && 1 ≤ d && d ≤ daysInMonth y m then
      some ⟨y, m, d⟩
    else none
  | _ => none

/-- Embeds `pd.to_datetime(s, format='%H:%M', errors='coerce')`: parses a
24-hour `hour:minute` pair, yielding `none` (NaT) on any mismatch. -/
def parseTime (s : String) : Option (Nat × Nat) :=
  match (splitOnChar ':' s.data).map natOfDigits with
  | [some h, some mi] =>
    if h ≤ 23 && mi ≤ 59 then some (h, mi) else none
  | _ => none

/-- One row of the canonical table after loading: the columns consulted by
the verified pipeline, all non-null, plus the derived `Day`, `Month` and
`Hour`/minute of the parsed `Time`. -/
structure Record where
  productLine : String
  total : ℚ
  payment : String
  date : SDate
  hour : Nat
  minute : Nat
  day : String
  month : String
deriving DecidableEq, Repr

/-- One raw CSV row before parsing: `Date` and `Time` are the raw strings
handed to `pd.to_datetime`; the other modelled cells may already be
missing (NaN) in the file. -/
structure RawRecord where
  date : String
  time : String
  productLine : Option String
  total : Option ℚ
  payment : Option String
deriving DecidableEq, Repr

/-- Loads one raw row: parse `Date` and `Time` with the fixed formats,
derive `Day`, `Month`, `Hour`; `none` when any modelled cell is missing
after parsing, mirroring what `df.dropna()` removes. -/
def loadRow (r : RawRecord) : Option Record :=
  match parseDate r.date, parseTime r.time, r.productLine, r.total,
      r.payment with
  | some d, some (h, mi), some pl, some tot, some pay =>
    some { productLine := pl, total := tot, payment := pay, date := d,
           hour := h, minute := mi, day := dayName d,
           month := monthName d.month }
  | _, _, _, _, _ => none

/-- Embeds `cargar_datos`: parse the date/time columns with
`errors='coerce'`, derive `Day`/`Month`/`Hour`, then `dropna()` — rows in
which any modelled cell failed to parse or was missing are dropped, the
rest survive in order. -/
def cargar_datos (rows : List RawRecord) : List Record :=
  rows.filterMap loadRow

/-- The sidebar state: the chosen date range and the two multiselect
lists (empty list = nothing ticked). -/
structure Selection where
  fechaInicio : SDate
  fechaFin : SDate
  lines : List String
  months : List String
deriving DecidableEq, Repr

/-- Embeds line 40: `df[(df['Date'] >= inicio) & (df['Date'] <= fin)]`. -/
def dateFiltered (df : List Record) (lo hi : SDate) : List Record :=
  df.filter (fun r => SDate.le lo r.date && SDate.le r.date hi)

/-- Embeds lines 45–46: `if opciones: df_filtrado =
df_filtrado[df_filtrado['Product line'].isin(opciones)]` — an empty
multiselect applies no restriction. -/
def lineFiltered (df : List Record) (opciones : List String) : List Record :=
  if opciones.isEmpty then df
  else df.filter (fun r => decide (r.productLine ∈ opciones))

/-- Embeds lines 51–52: `if meses_seleccionados: df_filtrado =
df_filtrado[df_filtrado['Month'].isin(meses_seleccionados)]`. -/
def monthFiltered (df : List Record) (meses : List String) : List Record :=
  if meses.isEmpty then df
  else df.filter (fun r => decide (r.month ∈ meses))

/-- The whole sidebar filter chain producing `df_filtrado`: date range,
then product line, then month. -/
def df_filtrado (df : List Record) (s : Selection) : List Record :=
  monthFiltered (lineFiltered (dateFiltered df s.fechaInicio s.fechaFin)
    s.lines) s.months

/-- Keeps the first occurrence of each value not yet in `seen`,
preserving order (helper for `uniqueList`). -/
def uniqueAux {α : Type} [DecidableEq α] (seen : List α) :
    List α → List α
  | [] => []
  | x :: xs =>
    if x ∈ seen then uniqueAux seen xs
    else x :: uniqueAux (x :: seen) xs

/-- First-appearance deduplication, as pandas `Series.unique()`. -/
def uniqueList {α : Type} [DecidableEq α] (xs : List α) : List α :=
  uniqueAux [] xs

/-- Embeds line 44: the product-line options offered,
`df['Product line'].unique()` — computed on the full table `df`. -/
def opciones (df : List Record) : List String :=
  uniqueList (df.map Record.productLine)

/-- Embeds line 49: the month options offered, `[m for m in ['January',
'February', 'March'] if m in df_filtrado['Month'].unique()]`, where
`df_filtrado` has at that point been filtered by date and product line. -/
def meses_ordenados (df : List Record) (lo hi : SDate)
    (lines : List String) : List String :=
  ["January", "February", "March"].filter
    (fun m => decide (m ∈ (lineFiltered (dateFiltered df lo hi) lines).map
      Record.month))

/-- Embeds `series.min()` on the `Date` column (`none` on an empty
table, as pandas returns NaT). -/
def fecha_min (df : List Record) : Option SDate :=
  match df.map Record.date with
  | [] => none
  | d :: ds => some (ds.foldl (fun a b => if SDate.le a b then a else b) d)

/-- Embeds `series.max()` on the `Date` column. -/
def fecha_max (df : List Record) : Option SDate :=
  match df.map Record.date with
  | [] => none
  | d :: ds => some (ds.foldl (fun a b => if SDate.le a b then b else a) d)

/-- Embeds `series.mean()`: `none` (NaN) on an empty series, otherwise
the arithmetic mean. -/
def seriesMean (xs : List ℚ) : Option ℚ :=
  if xs.isEmpty then none else some (xs.sum / xs.length)

/-- Embeds line 67: `df_filtrado['Total'].sum()`. -/
def total_sum (df : List Record) : ℚ :=
  (df.map Record.total).sum

/-- Inserts an element into a list sorted by `le`, before the first
element it compares `le` to (stable insertion). -/
def insertSorted {α : Type} (le : α → α → Bool) (x : α) :
    List α → List α
  | [] => [x]
  | y :: ys => if le x y then x :: y :: ys else y :: insertSorted le x ys

/-- Stable insertion sort by a boolean comparison. -/
def sortBy {α : Type} (le : α → α → Bool) : List α → List α
  | [] => []
  | x :: xs => insertSorted le x (sortBy le xs)

/-- Embeds `df.groupby('Date')['Total'].sum()`: the distinct dates in
ascending order (pandas groupby sorts its keys), each paired with the sum
of `Total` over its rows. -/
def groupSumByDate (df : List Record) : List (SDate × ℚ) :=
  (sortBy SDate.le (uniqueList (df.map Record.date))).map
    (fun d => (d, ((df.filter (fun r => decide (r.date = d))).map
      Record.total).sum))

/-- Embeds line 87: `df_filtrado.groupby('Date')['Total'].sum().reset_index()`. -/
def ventas_diarias (df : List Record) : List (SDate × ℚ) :=
  groupSumByDate df

/-- Embeds line 71: `df_filtrado.groupby('Date')['Total'].sum().mean()`. -/
def promedio_diario (df : List Record) : Option ℚ :=
  seriesMean ((groupSumByDate df).map Prod.snd)

/-- The fixed weekday order used by line 94's `reindex`. -/
def weekdayOrder : List String :=
  ["Monday", "Tuesday", "Wednesday", "Thursday", "Friday", "Saturday",
   "Sunday"]

/-- Embeds line 94: `df_filtrado.groupby('Day')['Total'].mean().reindex([
'Monday', ..., 'Sunday'])` — for each of the seven weekday names in order,
the mean of `Total` over that weekday's rows, `none` (NaN) where the
weekday has no rows. -/
def ventas_dia (df : List Record) : List (String × Option ℚ) :=
  weekdayOrder.map
    (fun d => (d, seriesMean ((df.filter (fun r => decide (r.day = d))).map
      Record.total)))

/-- Number of occurrences of a value in a list (one cell count of
`value_counts`). -/
def countOf {α : Type} [DecidableEq α] (xs : List α) (v : α) : Nat :=
  (xs.filter (fun x => decide (x = v))).length

/-- Embeds `series.value_counts()`: each distinct value with its
occurrence count, sorted by descending count (stable on ties). -/
def value_counts {α : Type} [DecidableEq α] (xs : List α) :
    List (α × Nat) :=
  sortBy (fun a b => decide (b.2 ≤ a.2))
    ((uniqueList xs).map (fun v => (v, countOf xs v)))

/-- Embeds line 195: `df['Payment'].value_counts()` — computed on the
full table `df`. -/
def payment_counts (df : List Record) : List (String × Nat) :=
  value_counts (df.map Record.payment)

/-- The payment-frequency table as the dashboard produces it for a given
sidebar selection: line 195 reads the unfiltered `df`, so the selection
is never consulted. -/
def dashboard_payment_counts (df : List Record) (_s : Selection) :
    List (String × Nat) :=
  payment_counts df

/-- Builds a canonical-table row from the modelled cells, with the
derived `Day` and `Month` computed from the date as the loader does. -/
def mkRec (pl pay : String) (tot : ℚ) (d : SDate) (h : Nat) : Record :=
  { productLine := pl, total := tot, payment := pay, date := d,
    hour := h, minute := 0, day := dayName d, month := monthName d.month }

/-- A three-row table over three consecutive dates with totals 100, 200
and 300 (the `daily_totals` scenario of the spec). -/
def tableThreeDays : List Record :=
  [mkRec "Food" "Cash" 100 ⟨2019, 1, 1⟩ 10,
   mkRec "Food" "Cash" 200 ⟨2019, 1, 2⟩ 11,
   mkRec "Tech" "Card" 300 ⟨2019, 1, 3⟩ 12]

/-- A one-row table whose single sale is dated in April. -/
def tableApril : List Record :=
  [mkRec "Food" "Cash" 50 ⟨2019, 4, 5⟩ 9]

/-- A one-row table whose single sale is dated in March and belongs to
product line `"A"`. -/
def tableMarchA : List Record :=
  [mkRec "A" "Cash" 50 ⟨2019, 3, 5⟩ 9]

/-- A two-row table with one `"Food"` sale in January and one `"Tech"`
sale in February. -/
def tableTwoLines : List Record :=
  [mkRec "Food" "Cash" 10 ⟨2019, 1, 5⟩ 9,
   mkRec "Tech" "Card" 20 ⟨2019, 2, 10⟩ 15]

/-- A well-formed raw CSV row. -/
def rawGood : RawRecord :=
  { date := "1/5/2019", time := "13:20", productLine := some "Food",
    total := some 100, payment := some "Cash" }

/-- A raw CSV row whose `Time` cell does not match the `%H:%M` format. -/
def rawBadTime : RawRecord :=
  { date := "1/6/2019", time := "25:99", productLine := some "Food",
    total := some 50, payment := some "Cash" }

/-- A raw CSV row whose `Date` cell does not match the `%m/%d/%Y`
format. -/
def rawBadDate : RawRecord :=
  { date := "13/45/2019", time := "10:00", productLine := some "Tech",
    total := some 70, payment := some "Card" }

/-- A selection spanning all of 2019 with nothing ticked. -/
def selWide : Selection := ⟨⟨2019, 1, 1⟩, ⟨2019, 12, 31⟩, [], []⟩

/-- A narrow selection with both multiselects in use. -/
def selNarrow : Selection :=
  ⟨⟨2019, 1, 5⟩, ⟨2019, 1, 5⟩, ["Food"], ["January"]⟩

theorem SDate.le_refl (a : SDate) : SDate.le a a = true := by
  simp [SDate.le]

theorem SDate.le_trans {a b c : SDate} (h₁ : SDate.le a b = true)
    (h₂ : SDate.le b c = true) : SDate.le a c = true := by
  simp only [SDate.le, decide_eq_true_eq] at *
  omega

theorem SDate.le_total (a b : SDate) :
    SDate.le a b = true ∨ SDate.le b a = true := by
  simp only [SDate.le, decide_eq_true_eq]
  omega

theorem mem_insertSorted {α : Type} (le : α → α → Bool) (x y : α)
    (xs : List α) : y ∈ insertSorted le x xs ↔ y = x ∨ y ∈ xs := by
  induction xs with
  | nil => simp [insertSorted]
  | cons z zs ih =>
    by_cases h : le x z = true
    · simp [insertSorted, h]
    · simp only [insertSorted, h, if_neg, Bool.not_eq_true] at *
      simp [List.mem_cons, ih]
      tauto

theorem mem_sortBy {α : Type} (le : α → α → Bool) (y : α) (xs : List α) :
    y ∈ sortBy le xs ↔ y ∈ xs := by
  induction xs with
  | nil => simp [sortBy]
  | cons x xs ih =>
    simp [sortBy, mem_insertSorted, ih]

theorem mem_uniqueAux {α : Type} [DecidableEq α] (seen xs : List α)
    (y : α) : y ∈ uniqueAux seen xs ↔ y ∈ xs ∧ y ∉ seen := by
  induction xs generalizing seen with
  | nil => simp [uniqueAux]
  | cons x xs ih =>
    by_cases hx : x ∈ seen
    · rw [uniqueAux, if_pos hx, ih]
      constructor
      · rintro ⟨h1, h2⟩
        exact ⟨List.mem_cons_of_mem _ h1, h2⟩
      · rintro ⟨h1, h2⟩
        rcases List.mem_cons.mp h1 with rfl | h1
        · exact absurd hx h2
        · exact ⟨h1, h2⟩
    · rw [uniqueAux, if_neg hx]
      simp only [List.mem_cons, ih]
      constructor
      · rintro (rfl | ⟨h1, h2⟩)
        · exact ⟨Or.inl rfl, hx⟩
        · exact ⟨Or.inr h1, fun hy => h2 (Or.inr hy)⟩
      · rintro ⟨rfl | h1, h2⟩
        · exact Or.inl rfl
        · by_cases hyx : y = x
          · exact Or.inl hyx
          · refine Or.inr ⟨h1, fun hc => ?_⟩
            rcases hc with hc | hc
            · exact hyx hc
            · exact h2 hc

theorem mem_uniqueList {α : Type} [DecidableEq α] (xs : List α) (y : α) :
    y ∈ uniqueList xs ↔ y ∈ xs := by
  simp [uniqueList, mem_uniqueAux]

theorem foldlMinDate_le (ds : List SDate) (a : SDate) :
    SDate.le (ds.foldl (fun p q => if SDate.le p q then p else q) a) a
      = true ∧
    ∀ d ∈ ds,
      SDate.le (ds.foldl (fun p q => if SDate.le p q then p else q) a) d
        = true := by
  induction ds generalizing a with
  | nil => exact ⟨SDate.le_refl a, by simp⟩
  | cons d tl ih =>
    simp only [List.foldl_cons]
    have hk : SDate.le (if SDate.le a d then a else d) a = true ∧
        SDate.le (if SDate.le a d then a else d) d = true := by
      by_cases h : SDate.le a d = true
      · rw [if_pos h]
        exact ⟨SDate.le_refl a, h⟩
      · rcases SDate.le_total a d with h1 | h1
        · exact absurd h1 h
        · rw [if_neg h]
          exact ⟨h1, SDate.le_refl d⟩
    obtain ⟨i1, i2⟩ := ih (if SDate.le a d then a else d)
    refine ⟨SDate.le_trans i1 hk.1, ?_⟩
    intro x hx
    rcases List.mem_cons.mp hx with rfl | hx
    · exact SDate.le_trans i1 hk.2
    · exact i2 x hx

theorem foldlMaxDate_ge (ds : List SDate) (a : SDate) :
    SDate.le a (ds.foldl (fun p q => if SDate.le p q then q else p) a)
      = true ∧
    ∀ d ∈ ds,
      SDate.le d (ds.foldl (fun p q => if SDate.le p q then q else p) a)
        = true := by
  induction ds generalizing a with
  | nil => exact ⟨SDate.le_refl a, by simp⟩
  | cons d tl ih =>
    simp only [List.foldl_cons]
    have hk : SDate.le a (if SDate.le a d then d else a) = true ∧
        SDate.le d (if SDate.le a d then d else a) = true := by
      by_cases h : SDate.le a d = true
      · rw [if_pos h]
        exact ⟨h, SDate.le_refl d⟩
      · rcases SDate.le_total a d with h1 | h1
        · exact absurd h1 h
        · rw [if_neg h]
          exact ⟨SDate.le_refl a, h1⟩
    obtain ⟨i1, i2⟩ := ih (if SDate.le a d then d else a)
    refine ⟨SDate.le_trans hk.1 i1, ?_⟩
    intro x hx
    rcases List.mem_cons.mp hx with rfl | hx
    · exact SDate.le_trans hk.2 i1
    · exact i2 x hx

theorem fecha_min_le_all (df : List Record) (lo : SDate)
    (h : fecha_min df = some lo) :
    ∀ r ∈ df, SDate.le lo r.date = true := by
  cases df with
  | nil => simp [fecha_min] at h
  | cons r0 rs =>
    simp only [fecha_min, List.map_cons, Option.some.injEq] at h
    subst h
    intro r hr
    obtain ⟨h1, h2⟩ := foldlMinDate_le (rs.map Record.date) r0.date
    rcases List.mem_cons.mp hr with rfl | hr
    · exact h1
    · exact h2 _ (List.mem_map_of_mem _ hr)

theorem fecha_max_ge_all (df : List Record) (hi : SDate)
    (h : fecha_max df = some hi) :
    ∀ r ∈ df, SDate.le r.date hi = true := by
  cases df with
  | nil => simp [fecha_max] at h
  | cons r0 rs =>
    simp only [fecha_max, List.map_cons, Option.some.injEq] at h
    subst h
    intro r hr
    obtain ⟨h1, h2⟩ := foldlMaxDate_ge (rs.map Record.date) r0.date
    rcases List.mem_cons.mp hr with rfl | hr
    · exact h1
    · exact h2 _ (List.mem_map_of_mem _ hr)

theorem dateFiltered_sublist (df : List Record) (lo hi : SDate) :
    (dateFiltered df lo hi).Sublist df :=
  List.filter_sublist df

theorem lineFiltered_sublist (df : List Record) (sel : List String) :
    (lineFiltered df sel).Sublist df := by
  unfold lineFiltered
  split
  · exact List.Sublist.refl df
  · exact List.filter_sublist df

theorem monthFiltered_sublist (df : List Record) (sel : List String) :
    (monthFiltered df sel).Sublist df := by
  unfold monthFiltered
  split
  · exact List.Sublist.refl df
  · exact List.filter_sublist df

theorem lineFiltered_all_observed (df : List Record) :
    lineFiltered df (uniqueList (df.map Record.productLine)) = df := by
  unfold lineFiltered
  split
  · rfl
  · refine List.filter_eq_self.mpr ?_
    intro r hr
    simp only [decide_eq_true_eq, mem_uniqueList, List.mem_map]
    exact ⟨r, hr, rfl⟩

theorem monthFiltered_all_observed (df : List Record) :
    monthFiltered df (uniqueList (df.map Record.month)) = df := by
  unfold monthFiltered
  split
  · rfl
  · refine List.filter_eq_self.mpr ?_
    intro r hr
    simp only [decide_eq_true_eq, mem_uniqueList, List.mem_map]
    exact ⟨r, hr, rfl⟩

/-- C1: for every table and selection, an empty product-line (resp.
month) multiselect imposes no restriction — the filter result equals the
one obtained by selecting every observed value of the field — while a
non-empty multiselect keeps exactly the rows whose field value belongs to
the selected set. -/
theorem claim1_empty_set_is_select_all (df : List Record)
    (ls ms : List String) :
    (lineFiltered df (uniqueList (df.map Record.productLine))
      = lineFiltered df []) ∧
    (monthFiltered df (uniqueList (df.map Record.month))
      = monthFiltered df []) ∧
    (ls ≠ [] → ∀ r : Record,
      r ∈ lineFiltered df ls ↔ r ∈ df ∧ r.productLine ∈ ls) ∧
    (ms ≠ [] → ∀ r : Record,
      r ∈ monthFiltered df ms ↔ r ∈ df ∧ r.month ∈ ms) := by
  refine ⟨?_, ?_, ?_, ?_⟩
  · rw [lineFiltered_all_observed]
    simp [lineFiltered]
  · rw [monthFiltered_all_observed]
    simp [monthFiltered]
  · intro h r
    rw [lineFiltered, if_neg (by simpa using h)]
    simp [List.mem_filter]
  · intro h r
    rw [monthFiltered, if_neg (by simpa using h)]
    simp [List.mem_filter]

/-- Witness for C1 at a concrete table: selecting `["Food"]` keeps the
`"Food"` row. -/
theorem claim1_witness :
    mkRec "Food" "Cash" 10 ⟨2019, 1, 5⟩ 9 ∈ lineFiltered tableTwoLines
      ["Food"] :=
  ((claim1_empty_set_is_select_all tableTwoLines ["Food"]
      ["January"]).2.2.1 (by decide) _).mpr
    ⟨by simp [tableTwoLines], by decide⟩

/-- C2: for every table and selection the filtered view `df_filtrado` is
a subsequence of the table — same order, same or fewer rows, every
retained row one of the original row values, the input untouched. -/
theorem claim2_filter_is_subsequence (df : List Record) (s : Selection) :
    (df_filtrado df s).Sublist df ∧
    (df_filtrado df s).length ≤ df.length ∧
    ∀ r ∈ df_filtrado df s, r ∈ df := by
  have hsub : (df_filtrado df s).Sublist df := by
    unfold df_filtrado
    exact ((monthFiltered_sublist _ _).trans
      (lineFiltered_sublist _ _)).trans (dateFiltered_sublist df _ _)
  exact ⟨hsub, hsub.length_le, fun r hr => hsub.subset hr⟩

/-- C3: a selection spanning the table's observed min/max dates with
empty product-line and month sets leaves `df_filtrado['Total'].sum()`
unchanged. -/
theorem claim3_full_range_preserves_total_sum (df : List Record)
    (lo hi : SDate) (hmin : fecha_min df = some lo)
    (hmax : fecha_max df = some hi) :
    total_sum (df_filtrado df ⟨lo, hi, [], []⟩) = total_sum df := by
  have hdate : dateFiltered df lo hi = df := by
    refine List.filter_eq_self.mpr ?_
    intro r hr
    rw [Bool.and_eq_true]
    exact ⟨fecha_min_le_all df lo hmin r hr, fecha_max_ge_all df hi hmax r hr⟩
  unfold df_filtrado
  simp only [monthFiltered, lineFiltered, List.isEmpty_nil, if_true]
  rw [hdate]

/-- Witness for C3: the full-span selection keeps the whole
three-day table's total. -/
theorem claim3_witness :
    total_sum (df_filtrado tableThreeDays
      ⟨⟨2019, 1, 1⟩, ⟨2019, 1, 3⟩, [], []⟩) = total_sum tableThreeDays :=
  claim3_full_range_preserves_total_sum tableThreeDays ⟨2019, 1, 1⟩
    ⟨2019, 1, 3⟩ (by decide) (by decide)

/-- C4: the date predicate keeps exactly the records whose date lies
between the two bounds, both inclusive; in particular a record dated on
either bound is retained. -/
theorem claim4_date_bounds_inclusive (df : List Record) (lo hi : SDate) :
    (∀ r : Record, r ∈ dateFiltered df lo hi ↔
      r ∈ df ∧ SDate.le lo r.date = true ∧ SDate.le r.date hi = true) ∧
    (∀ r ∈ df, r.date = lo → SDate.le lo hi = true →
      r ∈ dateFiltered df lo hi) ∧
    (∀ r ∈ df, r.date = hi → SDate.le lo hi = true →
      r ∈ dateFiltered df lo hi) := by
  have hmem : ∀ r : Record, r ∈ dateFiltered df lo hi ↔
      r ∈ df ∧ SDate.le lo r.date = true ∧ SDate.le r.date hi = true := by
    intro r
    simp [dateFiltered, List.mem_filter]
  refine ⟨hmem, ?_, ?_⟩
  · intro r hr he hlh
    exact (hmem r).mpr ⟨hr, he ▸ SDate.le_refl lo, he ▸ hlh⟩
  · intro r hr he hlh
    exact (hmem r).mpr ⟨hr, he ▸ hlh, he ▸ SDate.le_refl hi⟩

/-- Witness for C4: with bounds on the two rows' own dates, both
boundary rows are retained. -/
theorem claim4_witness :
    mkRec "Food" "Cash" 10 ⟨2019, 1, 5⟩ 9 ∈ dateFiltered tableTwoLines
      ⟨2019, 1, 5⟩ ⟨2019, 2, 10⟩ ∧
    mkRec "Tech" "Card" 20 ⟨2019, 2, 10⟩ 15 ∈ dateFiltered tableTwoLines
      ⟨2019, 1, 5⟩ ⟨2019, 2, 10⟩ :=
  ⟨(claim4_date_bounds_inclusive tableTwoLines ⟨2019, 1, 5⟩
      ⟨2019, 2, 10⟩).2.1 _ (by simp [tableTwoLines]) rfl (by decide),
   (claim4_date_bounds_inclusive tableTwoLines ⟨2019, 1, 5⟩
      ⟨2019, 2, 10⟩).2.2 _ (by simp [tableTwoLines]) rfl (by decide)⟩

theorem seriesMean_none_iff (xs : List ℚ) :
    seriesMean xs = none ↔ xs = [] := by
  unfold seriesMean
  split <;> simp_all [List.isEmpty_iff]

theorem seriesMean_nonempty (xs : List ℚ) (h : xs ≠ []) :
    seriesMean xs = some (xs.sum / xs.length) := by
  unfold seriesMean
  rw [if_neg (by simpa [List.isEmpty_iff] using h)]

/-- C5: a raw row whose date or time does not parse under the fixed
formats (or that misses any modelled cell) contributes nothing to the
loaded table — the loader drops it instead of erroring — and every
surviving row stems from a raw row all of whose cells parsed, so it is
fully non-null. -/
theorem claim5_unparseable_rows_dropped (rows : List RawRecord) :
    (∀ r ∈ rows,
      parseDate r.date = none ∨ parseTime r.time = none ∨
        r.productLine = none ∨ r.total = none ∨ r.payment = none →
      loadRow r = none) ∧
    (∀ rec ∈ cargar_datos rows, ∃ r ∈ rows, loadRow r = some rec ∧
      (parseDate r.date).isSome ∧ (parseTime r.time).isSome ∧
      r.productLine.isSome ∧ r.total.isSome ∧ r.payment.isSome) := by
  constructor
  · intro r _ h
    unfold loadRow
    rcases h with h | h | h | h | h <;> rw [h] <;>
      first
      | rfl
      | (cases parseDate r.date <;>
          first
          | rfl
          | (rcases parseTime r.time with _ | ⟨vh, vm⟩ <;>
              first
              | rfl
              | (cases r.productLine <;>
                  first
                  | rfl
                  | (cases r.total <;> rfl))))
  · intro rec hrec
    obtain ⟨r, hr, hsome⟩ := List.mem_filterMap.mp hrec
    refine ⟨r, hr, hsome, ?_⟩
    unfold loadRow at hsome
    split at hsome
    · rename_i d hm pl tot pay hd ht hp htot hpay
      rw [hd, ht, hp, htot, hpay]
      simp
    · simp at hsome

/-- Witness for C5, the spec's scenario: of a well-formed row and a row
with the unparseable time `"25:99"`, only the first survives loading. -/
theorem claim5_witness :
    loadRow rawBadTime = none ∧ loadRow rawBadDate = none ∧
    (cargar_datos [rawGood, rawBadTime]).length = 1 :=
  ⟨(claim5_unparseable_rows_dropped [rawGood, rawBadTime]).1 rawBadTime
      (by simp) (Or.inr (Or.inl (by decide))),
   (claim5_unparseable_rows_dropped [rawBadDate]).1 rawBadDate
      (by simp) (Or.inl (by decide)),
   by decide⟩

/-- C6: `ventas_dia` (the weekday-means table) always has exactly 7
entries, named `Monday` through `Sunday` in that order; a weekday with
rows carries the mean of their `Total`, a weekday without rows carries no
value. -/
theorem claim6_weekday_means_seven_entries (df : List Record) :
    (ventas_dia df).length = 7 ∧
    (ventas_dia df).map Prod.fst = weekdayOrder ∧
    ∀ p ∈ ventas_dia df,
      (p.2 = none ↔ ∀ r ∈ df, r.day ≠ p.1) ∧
      (∀ r ∈ df, r.day = p.1 →
        p.2 = some (((df.filter (fun x => decide (x.day = p.1))).map
          Record.total).sum /
          (((df.filter (fun x => decide (x.day = p.1))).map
            Record.total).length : ℚ))) := by
  refine ⟨rfl, rfl, ?_⟩
  intro p hp
  obtain ⟨d, hd, rfl⟩ := List.mem_map.mp hp
  dsimp only
  constructor
  · rw [seriesMean_none_iff]
    constructor
    · intro he r hr hday
      have hmem : r.total ∈ (df.filter (fun x => decide (x.day = d))).map
          Record.total :=
        List.mem_map_of_mem _ (List.mem_filter.mpr ⟨hr, by simp [hday]⟩)
      rw [he] at hmem
      exact absurd hmem (List.not_mem_nil _)
    · intro habs
      have hnil : df.filter (fun x => decide (x.day = d)) = [] :=
        List.filter_eq_nil_iff.mpr (fun r hr => by simp [habs r hr])
      rw [hnil, List.map_nil]
  · intro r hr hday
    refine seriesMean_nonempty _ ?_
    intro hemp
    have hmem : r.total ∈ (df.filter (fun x => decide (x.day = d))).map
        Record.total :=
      List.mem_map_of_mem _ (List.mem_filter.mpr ⟨hr, by simp [hday]⟩)
    rw [hemp] at hmem
    exact absurd hmem (List.not_mem_nil _)

/-- Witness for C6: in the three-day table the Tuesday entry of
`ventas_dia` holds the mean of the (single) Tuesday total. -/
theorem claim6_witness :
    (("Tuesday", seriesMean ((tableThreeDays.filter
        (fun x => decide (x.day = "Tuesday"))).map Record.total)) :
      String × Option ℚ).2 =
    some (((tableThreeDays.filter (fun x => decide (x.day = "Tuesday"))).map
        Record.total).sum /
      (((tableThreeDays.filter (fun x => decide (x.day = "Tuesday"))).map
        Record.total).length : ℚ)) :=
  (((claim6_weekday_means_seven_entries tableThreeDays).2.2
      ("Tuesday", seriesMean ((tableThreeDays.filter
        (fun x => decide (x.day = "Tuesday"))).map Record.total))
      (by unfold ventas_dia; exact List.mem_map_of_mem _ (by decide))).2
    (mkRec "Food" "Cash" 100 ⟨2019, 1, 1⟩ 10) (by simp [tableThreeDays])
    (by decide))

/-- C7: the daily-average metric is the mean of the per-date sums that
`ventas_diarias` tabulates, and on the spec's three-day scenario (totals
100, 200, 300 on consecutive dates) the table is exactly those three
pairs in date order with average 200. -/
theorem claim7_average_daily_total :
    (∀ df : List Record,
      promedio_diario df = seriesMean ((ventas_diarias df).map Prod.snd)) ∧
    ventas_diarias tableThreeDays =
      [(⟨2019, 1, 1⟩, 100), (⟨2019, 1, 2⟩, 200), (⟨2019, 1, 3⟩, 300)] ∧
    promedio_diario tableThreeDays = some 200 := by
  refine ⟨fun df => rfl, ?_, ?_⟩
  · simp +decide [ventas_diarias, groupSumByDate, uniqueList, sortBy,
      insertSorted, tableThreeDays, mkRec, SDate.le]
  · simp +decide [promedio_diario, groupSumByDate, uniqueList, sortBy,
      insertSorted, tableThreeDays, mkRec, SDate.le, seriesMean]
    norm_num

/-- C8: the payment-method frequency table is computed from the full
unfiltered table — identical for every sidebar selection — and each entry
counts the rows of the full table carrying that payment method. -/
theorem claim8_payment_frequency_unfiltered (df : List Record)
    (s₁ s₂ : Selection) :
    dashboard_payment_counts df s₁ = dashboard_payment_counts df s₂ ∧
    dashboard_payment_counts df s₁ = payment_counts df ∧
    ∀ p ∈ dashboard_payment_counts df s₁,
      p.2 = (df.filter (fun r => decide (r.payment = p.1))).length := by
  refine ⟨rfl, rfl, ?_⟩
  intro p hp
  have hp' : p ∈ (uniqueList (df.map Record.payment)).map
      (fun v => (v, countOf (df.map Record.payment) v)) := by
    simpa [dashboard_payment_counts, payment_counts, value_counts,
      mem_sortBy] using hp
  obtain ⟨v, hv, rfl⟩ := List.mem_map.mp hp'
  dsimp only
  unfold countOf
  rw [List.filter_map, List.length_map]
  rfl

/-- Witness for C8: on a concrete table the frequency table is the same
under two different selections, and the `"Cash"` entry counts the single
cash row. -/
theorem claim8_witness :
    dashboard_payment_counts tableTwoLines selWide
      = dashboard_payment_counts tableTwoLines selNarrow ∧
    (("Cash", 1) : String × Nat).2 =
      (tableTwoLines.filter (fun r => decide (r.payment = "Cash"))).length :=
  ⟨(claim8_payment_frequency_unfiltered tableTwoLines selWide
      selNarrow).1,
   (claim8_payment_frequency_unfiltered tableTwoLines selWide
      selNarrow).2.2 ("Cash", 1) (by decide)⟩

/-- Counterexample to C9 as stated: an April sale is present in the
date-filtered data yet `"April"` is never offered (the candidate list is
hard-coded to January–March); and a month present in the date-filtered
rows ceases to be offered once the product-line filter removes its rows
(the options are read after that filter). -/
theorem claim9_counterexample :
    ("April" ∈ (dateFiltered tableApril ⟨2019, 1, 1⟩
        ⟨2019, 12, 31⟩).map Record.month ∧
      "April" ∉ meses_ordenados tableApril ⟨2019, 1, 1⟩
        ⟨2019, 12, 31⟩ []) ∧
    ("March" ∈ (dateFiltered tableMarchA ⟨2019, 1, 1⟩
        ⟨2019, 12, 31⟩).map Record.month ∧
      meses_ordenados tableMarchA ⟨2019, 1, 1⟩ ⟨2019, 12, 31⟩ ["B"]
        = []) := by
  decide

/-- C9 amended: the month options offered are exactly the months of the
fixed candidate list `["January", "February", "March"]`, in that order,
that occur in the date- and product-line-filtered data. -/
theorem claim9_amended_month_options (df : List Record) (lo hi : SDate)
    (lines : List String) :
    (meses_ordenados df lo hi lines).Sublist
      ["January", "February", "March"] ∧
    ∀ m : String, m ∈ meses_ordenados df lo hi lines ↔
      (m ∈ (["January", "February", "March"] : List String) ∧
        ∃ r ∈ lineFiltered (dateFiltered df lo hi) lines,
          r.month = m) := by
  constructor
  · exact List.filter_sublist _
  · intro m
    simp [meses_ordenados, List.mem_filter, List.mem_map]

/-- C10: the product-line options are computed from the full unfiltered
table — a line is offered exactly when some row of the whole table
carries it — so a line with no rows inside the chosen date range can be
selected, and selecting it yields an empty result, not an error. -/
theorem claim10_options_from_unfiltered_table (df : List Record)
    (lo hi : SDate) (sel : List String) :
    (∀ l : String, l ∈ opciones df ↔ ∃ r ∈ df, r.productLine = l) ∧
    (sel ≠ [] → (∀ r ∈ dateFiltered df lo hi, r.productLine ∉ sel) →
      lineFiltered (dateFiltered df lo hi) sel = []) := by
  constructor
  · intro l
    simp [opciones, mem_uniqueList, List.mem_map]
  · intro hne habs
    rw [lineFiltered, if_neg (by simpa using hne)]
    exact List.filter_eq_nil_iff.mpr
      (fun r hr => by simpa using habs r hr)

/-- Witness for C10: `"Tech"` is offered although its only row lies
outside the selected January range, and selecting it returns the empty
table. -/
theorem claim10_witness :
    "Tech" ∈ opciones tableTwoLines ∧
    lineFiltered (dateFiltered tableTwoLines ⟨2019, 1, 1⟩
      ⟨2019, 1, 31⟩) ["Tech"] = [] :=
  ⟨((claim10_options_from_unfiltered_table tableTwoLines ⟨2019, 1, 1⟩
      ⟨2019, 1, 31⟩ ["Tech"]).1 "Tech").mpr
      ⟨mkRec "Tech" "Card" 20 ⟨2019, 2, 10⟩ 15,
       by simp [tableTwoLines], rfl⟩,
   (claim10_options_from_unfiltered_table tableTwoLines ⟨2019, 1, 1⟩
      ⟨2019, 1, 31⟩ ["Tech"]).2 (by decide) (by decide)⟩
